import Mathlib

/-!
# Verification of the retry/backoff loop of `download_profile_images`

This file gives a shallow embedding of the decision logic of `src/main.py`:
the failure classifier `should_backoff` (lines 86-93), the countdown sleep
`polite_sleep` (lines 78-84), the fixed backoff schedule (line 131), and the
`while True` retry loop of `download_profile_images` (lines 154-197).

Modelling choices:

* Exception classes are modelled as a flat enumeration `ExcKind` following the
  program's error taxonomy (connection / bad-request / forbidden / not-found /
  operator interrupt / other), together with the exception's message text.
  `except Exception` does not catch an operator interrupt
  (`KeyboardInterrupt` derives from `BaseException`), which the embedding
  reflects in a dedicated branch of the loop.
* The case-insensitive regex search for the literal pattern
  "please wait a few minutes" is modelled as a substring test on the
  lowercased message text; `"429" in text` and `"rate limit" in text.lower()`
  are substring tests as in the source.
* One traversal attempt over `profile.get_posts()` is driven by a script
  `Gen`: the generator either finishes, raises an exception, or yields a post
  together with the outcome that `L.download_post` would have for it.  A whole
  run is driven by a list of such scripts, one per attempt; if the loop wants
  a further attempt than the script provides, the run result is the marker
  `Outcome.outOfScript` (a model artifact, not a program state).
* The loop emits a trace of events: download invocations, successful
  downloads (each corresponding to one `processed += 1`), backoff sleeps and
  backoff-index increments (each corresponding to one `bo_idx += 1`).
* Python's `finally` clause runs on every exit path of the `try`; a `break`
  executed inside `finally` discards an in-flight exception.  The embedding
  reproduces this: the stall guard of lines 193-197 is checked on every
  branch, and on the retryable path it sees the already incremented backoff
  index, while on the interrupt path a firing stall guard swallows the
  interrupt.
-/

namespace Insta

/-- Exception classes distinguished by the loop's handlers, as a flat
enumeration per the program's error taxonomy. -/
inductive ExcKind where
  | connection
  | badRequest
  | forbidden
  | notFound
  | keyboardInterrupt
  | other
deriving DecidableEq

/-- An exception: its class and its message text (`str(exc)`). -/
structure Exc where
  kind : ExcKind
  text : String
deriving DecidableEq

/-- A post as seen by the loop: shortcode, `is_video`, `is_pinned`. -/
structure Post where
  shortcode : String
  is_video : Bool
  is_pinned : Bool
deriving DecidableEq

/-- Substring test on character lists. -/
def listHasSub (pat : List Char) : List Char → Bool
  | [] => pat.isEmpty
  | c :: cs => pat.isPrefixOf (c :: cs) || listHasSub pat cs

/-- `pat in s` on strings. -/
def strHasSub (s pat : String) : Bool := listHasSub pat.toList s.toList

/-- Python's `str.lower`, modelled per character (the texts involved are
ASCII). -/
def lowerChars (s : String) : List Char := s.toList.map Char.toLower

/-- The `isinstance` test of `should_backoff` (line 89): connection,
bad-request and forbidden exception classes. -/
def isRetryKind : ExcKind → Bool
  | .connection => true
  | .badRequest => true
  | .forbidden => true
  | _ => false

/-- `should_backoff` (lines 86-93).  The `PLEASE_WAIT_PAT` regex (line 36) is
a case-insensitive search for the literal text "please wait a few minutes",
modelled as a substring test on the lowercased text. -/
def should_backoff (e : Exc) : Bool :=
  isRetryKind e.kind
    || listHasSub "please wait a few minutes".toList (lowerChars e.text)
    || strHasSub e.text "429"
    || listHasSub "rate limit".toList (lowerChars e.text)

/-- The backoff schedule (line 131). -/
def backoffs : List Nat := [60, 120, 300, 600, 1200]

/-- `polite_sleep` (lines 78-84): the countdown values displayed, one
one-second sleep per entry, from `seconds` down to `1`. -/
def polite_sleep (seconds : Nat) : List Nat :=
  (List.range seconds).map (fun i => seconds - i)

/-- Script for one traversal attempt over `profile.get_posts()`: the
generator finishes, raises, or yields a post `p` whose `download_post`
outcome would be `dlr` (`none` = success, `some e` = raises `e`). -/
inductive Gen where
  | done : Gen
  | raiseE (e : Exc) : Gen
  | yieldP (p : Post) (dlr : Option Exc) (rest : Gen) : Gen
deriving DecidableEq

/-- Events of a run: `download_post` invocation, successful download
(`processed += 1`), a backoff sleep of `w` seconds, `bo_idx += 1`. -/
inductive Ev where
  | dlInvoke (p : Post)
  | dlOk (p : Post)
  | sleep (w : Nat)
  | boInc
deriving DecidableEq

/-- Result of one traversal attempt: its events and the iteration-level
exception escaping the `for` loop, if any. -/
structure RoundRes where
  evs : List Ev
  exc : Option Exc
deriving DecidableEq

/-- The body of `for post in profile.get_posts()` (lines 159-170): the
pinned-post branch guarded by `use_fast_update` (lines 160-162) is `pass`,
video posts are skipped (lines 164-166), otherwise `download_post` is invoked
and on success `processed` is incremented (lines 168-169).  A `download_post`
exception escapes the `for` loop: there is no per-post handler. -/
def roundRun (use_fast_update : Bool) : Gen → RoundRes
  | .done => ⟨[], none⟩
  | .raiseE e => ⟨[], some e⟩
  | .yieldP p dlr rest =>
      -- lines 160-162: `if use_fast_update and post.is_pinned: pass`
      let _ := use_fast_update && p.is_pinned
      if p.is_video then
        roundRun use_fast_update rest
      else
        match dlr with
        | none =>
            ⟨.dlInvoke p :: .dlOk p :: (roundRun use_fast_update rest).evs,
             (roundRun use_fast_update rest).exc⟩
        | some e => ⟨[.dlInvoke p], some e⟩

/-- Number of `processed += 1` steps recorded in an event list. -/
def countOk (evs : List Ev) : Nat :=
  (evs.filter (fun ev => match ev with | .dlOk _ => true | _ => false)).length

/-- Number of `bo_idx += 1` steps recorded in an event list. -/
def countBoInc (evs : List Ev) : Nat :=
  (evs.filter (fun ev => match ev with | .boInc => true | _ => false)).length

/-- The backoff waits recorded in an event list, in order. -/
def sleepWaits (evs : List Ev) : List Nat :=
  evs.filterMap (fun ev => match ev with | .sleep w => some w | _ => none)

/-- The posts for which `download_post` was invoked, in order. -/
def dlPosts (evs : List Ev) : List Post :=
  evs.filterMap (fun ev => match ev with | .dlInvoke p => some p | _ => none)

/-- The posts whose download succeeded (one per `processed += 1`), in order. -/
def okPosts (evs : List Ev) : List Post :=
  evs.filterMap (fun ev => match ev with | .dlOk p => some p | _ => none)

/-- Shortcodes of successfully downloaded posts, in order, with repeats. -/
def okShortcodes (evs : List Ev) : List String := (okPosts evs).map Post.shortcode

/-- How a run ends.  `done`: the `while` loop exits by `break` and the final
summary (line 199) is printed.  `crashed`: an uncaught exception propagates
out of the loop and the summary is not printed.  `outOfScript`: model
artifact — the loop wanted a further traversal attempt than the script
provides. -/
inductive Outcome where
  | done (processed : Nat)
  | crashed (processed : Nat) (e : Exc)
  | outOfScript (processed : Nat) (bo_idx : Nat)
deriving DecidableEq

/-- The `processed` counter carried by a run result. -/
def outProc : Outcome → Nat
  | .done n => n
  | .crashed n _ => n
  | .outOfScript n _ => n

/-- Whether the final summary line (line 199) is reached. -/
def summaryPrinted : Outcome → Bool
  | .done _ => true
  | _ => false

/-- The `while True` retry loop (lines 154-197), one script entry per
traversal attempt.  Branches, in source order:

* no iteration-level exception: `break` (line 173);
* `QueryReturnedNotFoundException` (lines 175-177): `break`;
* an operator interrupt is not caught by `except Exception`; the `finally`
  clause still runs, and a firing stall guard's `break` discards the
  interrupt, otherwise the interrupt propagates (`crashed`);
* retryable exception (lines 180-188): sleep
  `backoffs[min(bo_idx, len(backoffs)-1)]` seconds, `bo_idx += 1`,
  `continue` — overridden by the stall guard's `break` in `finally`
  (lines 193-197) when no post was processed this round and the incremented
  `bo_idx` has reached the schedule length;
* non-retryable exception (lines 189-191): `break`. -/
def loop (fu : Bool) : List Gen → Nat → Nat → List Ev × Outcome
  | [], processed, bo => ([], .outOfScript processed bo)
  | g :: rest, processed, bo =>
    match (roundRun fu g).exc with
    | none =>
        ((roundRun fu g).evs, .done (processed + countOk (roundRun fu g).evs))
    | some e =>
      match e.kind with
      | .notFound =>
          ((roundRun fu g).evs, .done (processed + countOk (roundRun fu g).evs))
      | .keyboardInterrupt =>
          if processed + countOk (roundRun fu g).evs = processed ∧
              backoffs.length ≤ bo then
            ((roundRun fu g).evs, .done (processed + countOk (roundRun fu g).evs))
          else
            ((roundRun fu g).evs,
             .crashed (processed + countOk (roundRun fu g).evs) e)
      | _ =>
          if should_backoff e then
            if processed + countOk (roundRun fu g).evs = processed ∧
                backoffs.length ≤ bo + 1 then
              ((roundRun fu g).evs ++
                 [.sleep (backoffs.getD (min bo (backoffs.length - 1)) 0), .boInc],
               .done (processed + countOk (roundRun fu g).evs))
            else
              ((roundRun fu g).evs ++
                 .sleep (backoffs.getD (min bo (backoffs.length - 1)) 0) :: .boInc ::
                   (loop fu rest (processed + countOk (roundRun fu g).evs) (bo + 1)).1,
               (loop fu rest (processed + countOk (roundRun fu g).evs) (bo + 1)).2)
          else
            ((roundRun fu g).evs, .done (processed + countOk (roundRun fu g).evs))

/-- The retry loop of `download_profile_images`, run from the initial state
`processed = 0`, `bo_idx = 0` (lines 131-132, 154). -/
def download_profile_images (fu : Bool) (script : List Gen) : List Ev × Outcome :=
  loop fu script 0 0

/-- In a trace, whether every sleep is immediately followed by the
backoff-index increment (`bo_idx += 1` on line 186 directly follows
`polite_sleep` on line 185). -/
def sleepsFollowedByInc : List Ev → Bool
  | [] => true
  | .sleep _ :: rest =>
      match rest with
      | .boInc :: rest2 => sleepsFollowedByInc rest2
      | _ => false
  | _ :: rest => sleepsFollowedByInc rest

/-- The retryable class as worded by the specification: "connection errors,
malformed-request errors, forbidden responses, or any exception whose message
matches a case-insensitive 'please wait a few minutes' pattern, contains the
substring '429', or contains 'rate limit' in any case". -/
def specRetryable (e : Exc) : Prop :=
  e.kind = .connection ∨ e.kind = .badRequest ∨ e.kind = .forbidden
    ∨ listHasSub "please wait a few minutes".toList (lowerChars e.text) = true
    ∨ strHasSub e.text "429" = true
    ∨ listHasSub "rate limit".toList (lowerChars e.text) = true

/-! ### Concrete inputs used by witnesses and counterexamples -/

/-- A non-video post. -/
def postA : Post := ⟨"A", false, false⟩

/-- A video post. -/
def postB : Post := ⟨"B", true, false⟩

/-- A second non-video post. -/
def postC : Post := ⟨"C", false, false⟩

/-- An unclassified fatal exception. -/
def excBoom : Exc := ⟨.other, "boom"⟩

/-- A retryable connection exception. -/
def excConn : Exc := ⟨.connection, "conn reset"⟩

/-- An operator interrupt. -/
def excInt : Exc := ⟨.keyboardInterrupt, "KeyboardInterrupt"⟩

/-- A not-found exception. -/
def excNF : Exc := ⟨.notFound, "not found"⟩

/-- Attempt: post A downloads, then the generator raises a retryable
connection error. -/
def genAConn : Gen := .yieldP postA none (.raiseE excConn)

/-- Attempt: post A downloads, then the traversal completes. -/
def genA : Gen := .yieldP postA none .done

/-- Attempt: the download of post A fails fatally; post C follows in the
sequence but is never reached. -/
def genDlFail : Gen := .yieldP postA (some excBoom) (.yieldP postC none .done)

/-- Attempt: a fresh non-video post downloads, then the generator raises a
retryable connection error. -/
def genProg (n : Nat) : Gen :=
  .yieldP ⟨"P" ++ toString n, false, false⟩ none (.raiseE excConn)

/-- Attempt: the generator raises a retryable connection error at once. -/
def genConn : Gen := .raiseE excConn

/-- Attempt: the generator raises an operator interrupt at once. -/
def genInt : Gen := .raiseE excInt

/-- Attempt: the generator raises a not-found exception after post A. -/
def genANF : Gen := .yieldP postA none (.raiseE excNF)

/-- Attempt: posts A, B (video), C; traversal completes. -/
def genMix : Gen := .yieldP postA none (.yieldP postB none (.yieldP postC none .done))

/-! ## Helper lemmas -/

/-- The event counters distribute over appended traces. -/
lemma countOk_append (a b : List Ev) : countOk (a ++ b) = countOk a + countOk b := by
  simp [countOk, List.filter_append]

lemma countBoInc_append (a b : List Ev) :
    countBoInc (a ++ b) = countBoInc a + countBoInc b := by
  simp [countBoInc, List.filter_append]

lemma sleepWaits_append (a b : List Ev) :
    sleepWaits (a ++ b) = sleepWaits a ++ sleepWaits b := by
  simp [sleepWaits, List.filterMap_append]

lemma dlPosts_append (a b : List Ev) : dlPosts (a ++ b) = dlPosts a ++ dlPosts b := by
  simp [dlPosts, List.filterMap_append]

lemma okPosts_append (a b : List Ev) : okPosts (a ++ b) = okPosts a ++ okPosts b := by
  simp [okPosts, List.filterMap_append]

/-- Every event of one traversal attempt is a download invocation or a
successful download, and its post is not a video. -/
lemma roundRun_evs_shape (fu : Bool) (g : Gen) :
    ∀ ev ∈ (roundRun fu g).evs,
      ∃ q, q.is_video = false ∧ (ev = .dlInvoke q ∨ ev = .dlOk q) := by
  induction g with
  | done => simp [roundRun]
  | raiseE e => simp [roundRun]
  | yieldP p dlr rest ih =>
      intro ev hev
      by_cases hv : p.is_video
      · exact ih ev (by simpa [roundRun, hv] using hev)
      · cases dlr with
        | none =>
            rcases (by simpa [roundRun, hv] using hev :
                ev = Ev.dlInvoke p ∨ ev = Ev.dlOk p ∨ ev ∈ (roundRun fu rest).evs)
              with h | h | h
            · exact ⟨p, by simp [hv], Or.inl h⟩
            · exact ⟨p, by simp [hv], Or.inr h⟩
            · exact ih ev h
        | some e =>
            have : ev = Ev.dlInvoke p := by simpa [roundRun, hv] using hev
            exact ⟨p, by simp [hv], Or.inl this⟩

/-- A traversal attempt emits no backoff sleeps. -/
lemma sleepWaits_roundRun (fu : Bool) (g : Gen) :
    sleepWaits (roundRun fu g).evs = [] := by
  refine List.filterMap_eq_nil_iff.mpr ?_
  intro ev hev
  rcases roundRun_evs_shape fu g ev hev with ⟨q, _, h | h⟩ <;> subst h <;> rfl

/-- A traversal attempt emits no backoff-index increments. -/
lemma countBoInc_roundRun (fu : Bool) (g : Gen) :
    countBoInc (roundRun fu g).evs = 0 := by
  rw [countBoInc, List.length_eq_zero, List.filter_eq_nil_iff]
  intro ev hev
  rcases roundRun_evs_shape fu g ev hev with ⟨q, _, h | h⟩ <;> subst h <;> simp

/-- The pinned-post branch guarded by `use_fast_update` is a no-op, so one
traversal attempt does not depend on the flag. -/
lemma roundRun_fu (a b : Bool) (g : Gen) : roundRun a g = roundRun b g := by
  induction g with
  | done => rfl
  | raiseE e => rfl
  | yieldP p dlr rest ih => cases dlr <;> simp [roundRun, ih]

/-! ### Branch lemmas for one iteration of the retry loop -/

/-- Success path (line 173): the traversal completed, the loop breaks. -/
lemma loop_cons_none (fu : Bool) (g : Gen) (rest : List Gen) (p bo : Nat)
    (h : (roundRun fu g).exc = none) :
    loop fu (g :: rest) p bo =
      ((roundRun fu g).evs, .done (p + countOk (roundRun fu g).evs)) := by
  simp only [loop, h]

/-- Not-found path (lines 175-177): the loop breaks. -/
lemma loop_cons_notFound (fu : Bool) (g : Gen) (rest : List Gen) (p bo : Nat)
    (e : Exc) (h : (roundRun fu g).exc = some e) (hk : e.kind = .notFound) :
    loop fu (g :: rest) p bo =
      ((roundRun fu g).evs, .done (p + countOk (roundRun fu g).evs)) := by
  simp only [loop, h, hk]

/-- Operator-interrupt path: `except Exception` does not catch it; the stall
guard's `break` in `finally` may swallow it, otherwise it propagates. -/
lemma loop_cons_interrupt (fu : Bool) (g : Gen) (rest : List Gen) (p bo : Nat)
    (e : Exc) (h : (roundRun fu g).exc = some e)
    (hk : e.kind = .keyboardInterrupt) :
    loop fu (g :: rest) p bo =
      ((roundRun fu g).evs,
       if p + countOk (roundRun fu g).evs = p ∧ backoffs.length ≤ bo then
         .done (p + countOk (roundRun fu g).evs)
       else
         .crashed (p + countOk (roundRun fu g).evs) e) := by
  simp only [loop, h, hk]
  split <;> rfl

/-- Retryable path (lines 180-188) with the stall guard of lines 193-197:
sleep, increment the backoff index, and either stop (guard fires on the
incremented index) or start the next traversal attempt. -/
lemma loop_cons_retry (fu : Bool) (g : Gen) (rest : List Gen) (p bo : Nat)
    (e : Exc) (h : (roundRun fu g).exc = some e)
    (hk1 : e.kind ≠ .notFound) (hk2 : e.kind ≠ .keyboardInterrupt)
    (hb : should_backoff e = true) :
    loop fu (g :: rest) p bo =
      if p + countOk (roundRun fu g).evs = p ∧ backoffs.length ≤ bo + 1 then
        ((roundRun fu g).evs ++
           [.sleep (backoffs.getD (min bo (backoffs.length - 1)) 0), .boInc],
         .done (p + countOk (roundRun fu g).evs))
      else
        ((roundRun fu g).evs ++
           .sleep (backoffs.getD (min bo (backoffs.length - 1)) 0) :: .boInc ::
             (loop fu rest (p + countOk (roundRun fu g).evs) (bo + 1)).1,
         (loop fu rest (p + countOk (roundRun fu g).evs) (bo + 1)).2) := by
  simp only [loop, h]
  cases hek : e.kind <;> simp_all

/-- Fatal path (lines 189-191): a non-retryable exception stops the loop. -/
lemma loop_cons_fatal (fu : Bool) (g : Gen) (rest : List Gen) (p bo : Nat)
    (e : Exc) (h : (roundRun fu g).exc = some e)
    (hk1 : e.kind ≠ .notFound) (hk2 : e.kind ≠ .keyboardInterrupt)
    (hb : should_backoff e = false) :
    loop fu (g :: rest) p bo =
      ((roundRun fu g).evs, .done (p + countOk (roundRun fu g).evs)) := by
  simp only [loop, h]
  cases hek : e.kind <;> simp_all

/-- The whole retry loop does not depend on the `use_fast_update` flag. -/
lemma loop_fu (a b : Bool) (s : List Gen) (p bo : Nat) :
    loop a s p bo = loop b s p bo := by
  induction s generalizing p bo with
  | nil => rfl
  | cons g rest ih =>
      simp only [loop, roundRun_fu a b g, ih]

/-- The final `processed` counter of a run equals the initial counter plus
the number of successful downloads recorded in the run's trace: the only
mutation of `processed` is the `processed += 1` of line 169. -/
lemma loop_outProc (fu : Bool) (s : List Gen) (p bo : Nat) :
    outProc (loop fu s p bo).2 = p + countOk (loop fu s p bo).1 := by
  induction s generalizing p bo with
  | nil => simp [loop, outProc, countOk]
  | cons g rest ih =>
      cases h : (roundRun fu g).exc with
      | none => simp [loop_cons_none fu g rest p bo h, outProc]
      | some e =>
          by_cases hk1 : e.kind = .notFound
          · simp [loop_cons_notFound fu g rest p bo e h hk1, outProc]
          · by_cases hk2 : e.kind = .keyboardInterrupt
            · rw [loop_cons_interrupt fu g rest p bo e h hk2]
              split <;> simp [outProc]
            · cases hb : should_backoff e with
              | false => simp [loop_cons_fatal fu g rest p bo e h hk1 hk2 hb, outProc]
              | true =>
                  rw [loop_cons_retry fu g rest p bo e h hk1 hk2 hb]
                  split
                  · simp [outProc, countOk_append, countOk]
                  · simp only [countOk_append, ih]
                    have hc : countOk [Ev.sleep (backoffs.getD
                        (min bo (backoffs.length - 1)) 0), Ev.boInc] = 0 := rfl
                    simp [countOk, List.filter_cons] at hc ⊢
                    omega

/-- Every event in a run's trace is a download invocation or a successful
download of a non-video post, a sleep, or a backoff-index increment. -/
lemma loop_evs_shape (fu : Bool) (s : List Gen) (p bo : Nat) :
    ∀ ev ∈ (loop fu s p bo).1,
      (∃ q, q.is_video = false ∧ (ev = .dlInvoke q ∨ ev = .dlOk q)) ∨
        ev = .boInc ∨ ∃ w, ev = .sleep w := by
  induction s generalizing p bo with
  | nil => simp [loop]
  | cons g rest ih =>
      intro ev hev
      cases h : (roundRun fu g).exc with
      | none =>
          rw [loop_cons_none fu g rest p bo h] at hev
          exact Or.inl (roundRun_evs_shape fu g ev hev)
      | some e =>
          by_cases hk1 : e.kind = .notFound
          · rw [loop_cons_notFound fu g rest p bo e h hk1] at hev
            exact Or.inl (roundRun_evs_shape fu g ev hev)
          · by_cases hk2 : e.kind = .keyboardInterrupt
            · rw [loop_cons_interrupt fu g rest p bo e h hk2] at hev
              exact Or.inl (roundRun_evs_shape fu g ev hev)
            · cases hb : should_backoff e with
              | false =>
                  rw [loop_cons_fatal fu g rest p bo e h hk1 hk2 hb] at hev
                  exact Or.inl (roundRun_evs_shape fu g ev hev)
              | true =>
                  rw [loop_cons_retry fu g rest p bo e h hk1 hk2 hb] at hev
                  split at hev
                  · rcases List.mem_append.mp hev with hm | hm
                    · exact Or.inl (roundRun_evs_shape fu g ev hm)
                    · simp only [List.mem_cons, List.not_mem_nil, or_false] at hm
                      rcases hm with hm | hm
                      · exact Or.inr (Or.inr ⟨_, hm⟩)
                      · exact Or.inr (Or.inl hm)
                  · rcases List.mem_append.mp hev with hm | hm
                    · exact Or.inl (roundRun_evs_shape fu g ev hm)
                    · rcases List.mem_cons.mp hm with hm | hm
                      · exact Or.inr (Or.inr ⟨_, hm⟩)
                      · rcases List.mem_cons.mp hm with hm | hm
                        · exact Or.inr (Or.inl hm)
                        · exact ih _ _ ev hm

/-- Successful downloads recorded in a trace, counted two ways. -/
lemma countOk_eq_okPosts_length (evs : List Ev) :
    countOk evs = (okPosts evs).length := by
  induction evs with
  | nil => rfl
  | cons ev rest ih => cases ev <;> simp [countOk, okPosts, List.filter_cons] at ih ⊢ <;> omega

/-- The `n`-th backoff wait of a run started at backoff index `bo` is
`backoffs[min(bo + n, len(backoffs) - 1)]` (line 181). -/
lemma sleepWaits_loop (fu : Bool) (s : List Gen) (p bo n : Nat)
    (hn : n < (sleepWaits (loop fu s p bo).1).length) :
    (sleepWaits (loop fu s p bo).1).getD n 0 =
      backoffs.getD (min (bo + n) (backoffs.length - 1)) 0 := by
  induction s generalizing p bo n with
  | nil => simp [loop, sleepWaits] at hn
  | cons g rest ih =>
      cases h : (roundRun fu g).exc with
      | none =>
          rw [loop_cons_none fu g rest p bo h] at hn
          simp [sleepWaits_roundRun] at hn
      | some e =>
          by_cases hk1 : e.kind = .notFound
          · rw [loop_cons_notFound fu g rest p bo e h hk1] at hn
            simp [sleepWaits_roundRun] at hn
          · by_cases hk2 : e.kind = .keyboardInterrupt
            · rw [loop_cons_interrupt fu g rest p bo e h hk2] at hn
              simp [sleepWaits_roundRun] at hn
            · cases hb : should_backoff e with
              | false =>
                  rw [loop_cons_fatal fu g rest p bo e h hk1 hk2 hb] at hn
                  simp [sleepWaits_roundRun] at hn
              | true =>
                  rw [loop_cons_retry fu g rest p bo e h hk1 hk2 hb] at hn ⊢
                  split at hn <;> rename_i hstall
                  · rw [if_pos hstall]
                    rw [sleepWaits_append, sleepWaits_roundRun] at hn ⊢
                    have hn0 : n = 0 := by
                      simpa [sleepWaits, Nat.lt_one_iff] using hn
                    subst hn0
                    simp [sleepWaits]
                  · rw [if_neg hstall]
                    rw [sleepWaits_append, sleepWaits_roundRun] at hn ⊢
                    have hsw : sleepWaits
                        (Ev.sleep (backoffs.getD (min bo (backoffs.length - 1)) 0) ::
                          Ev.boInc ::
                          (loop fu rest (p + countOk (roundRun fu g).evs) (bo + 1)).1) =
                        backoffs.getD (min bo (backoffs.length - 1)) 0 ::
                          sleepWaits
                            (loop fu rest (p + countOk (roundRun fu g).evs) (bo + 1)).1 := by
                      simp [sleepWaits]
                    rw [hsw] at hn ⊢
                    cases n with
                    | zero => simp
                    | succ m =>
                        simp only [List.nil_append, List.length_cons,
                          Nat.succ_lt_succ_iff] at hn
                        have := ih (p + countOk (roundRun fu g).evs) (bo + 1) m hn
                        simp only [List.nil_append, List.getD_cons_succ]
                        rw [this]
                        have harith : bo + 1 + m = bo + (m + 1) := by omega
                        rw [harith]

lemma sleepsFollowedByInc_append (evs tail : List Ev)
    (h : ∀ ev ∈ evs, ∀ w, ev ≠ Ev.sleep w) :
    sleepsFollowedByInc (evs ++ tail) = sleepsFollowedByInc tail := by
  induction evs with
  | nil => rfl
  | cons ev evs ih =>
      have hev := h ev (by simp)
      have hrest : ∀ x ∈ evs, ∀ w, x ≠ Ev.sleep w :=
        fun x hx => h x (List.mem_cons_of_mem ev hx)
      cases ev with
      | sleep w => exact absurd rfl (hev w)
      | dlInvoke q =>
          show sleepsFollowedByInc (evs ++ tail) = sleepsFollowedByInc tail
          exact ih hrest
      | dlOk q =>
          show sleepsFollowedByInc (evs ++ tail) = sleepsFollowedByInc tail
          exact ih hrest
      | boInc =>
          show sleepsFollowedByInc (evs ++ tail) = sleepsFollowedByInc tail
          exact ih hrest

lemma roundRun_no_sleep (fu : Bool) (g : Gen) :
    ∀ ev ∈ (roundRun fu g).evs, ∀ w, ev ≠ Ev.sleep w := by
  intro ev hev w
  rcases roundRun_evs_shape fu g ev hev with ⟨q, _, h | h⟩ <;> subst h <;> simp

/-- Every sleep of a run is immediately followed by `bo_idx += 1`. -/
lemma sleepsFollowedByInc_loop (fu : Bool) (s : List Gen) (p bo : Nat) :
    sleepsFollowedByInc (loop fu s p bo).1 = true := by
  induction s generalizing p bo with
  | nil => rfl
  | cons g rest ih =>
      cases h : (roundRun fu g).exc with
      | none =>
          rw [loop_cons_none fu g rest p bo h]
          have := sleepsFollowedByInc_append (roundRun fu g).evs []
            (roundRun_no_sleep fu g)
          simpa using this
      | some e =>
          by_cases hk1 : e.kind = .notFound
          · rw [loop_cons_notFound fu g rest p bo e h hk1]
            have := sleepsFollowedByInc_append (roundRun fu g).evs []
              (roundRun_no_sleep fu g)
            simpa using this
          · by_cases hk2 : e.kind = .keyboardInterrupt
            · rw [loop_cons_interrupt fu g rest p bo e h hk2]
              have := sleepsFollowedByInc_append (roundRun fu g).evs []
                (roundRun_no_sleep fu g)
              simpa using this
            · cases hb : should_backoff e with
              | false =>
                  rw [loop_cons_fatal fu g rest p bo e h hk1 hk2 hb]
                  have := sleepsFollowedByInc_append (roundRun fu g).evs []
                    (roundRun_no_sleep fu g)
                  simpa using this
              | true =>
                  rw [loop_cons_retry fu g rest p bo e h hk1 hk2 hb]
                  split
                  · rw [sleepsFollowedByInc_append _ _ (roundRun_no_sleep fu g)]
                    rfl
                  · rw [sleepsFollowedByInc_append _ _ (roundRun_no_sleep fu g)]
                    show sleepsFollowedByInc
                      (loop fu rest (p + countOk (roundRun fu g).evs) (bo + 1)).1 = true
                    exact ih _ _

/-- `polite_sleep w` ticks exactly `w` times, one second each. -/
lemma polite_sleep_length (w : Nat) : (polite_sleep w).length = w := by
  simp [polite_sleep]

/-- The countdown displayed by `polite_sleep w` runs from `w` down to `1`. -/
lemma polite_sleep_getD (w i : Nat) (hi : i < w) :
    (polite_sleep w).getD i 0 = w - i := by
  rw [polite_sleep, List.getD_eq_getElem?_getD, List.getElem?_map,
    List.getElem?_range hi]
  rfl

/-- Counters over trace prefixes move by steps of zero or one. -/
lemma length_filter_take_succ (pr : Ev → Bool) (l : List Ev) (i : Nat) :
    ((l.take i).filter pr).length ≤ ((l.take (i + 1)).filter pr).length ∧
      ((l.take (i + 1)).filter pr).length ≤ ((l.take i).filter pr).length + 1 := by
  rw [List.take_succ, List.filter_append, List.length_append]
  refine ⟨Nat.le_add_right _ _, ?_⟩
  have : (l[i]?.toList.filter pr).length ≤ 1 := by
    cases l[i]? with
    | none => simp
    | some a =>
        calc (Option.toList (some a) |>.filter pr).length
            ≤ (Option.toList (some a)).length := List.length_filter_le pr _
          _ = 1 := rfl
  omega

/-- Every post for which `download_post` is invoked during a run is a
non-video post. -/
lemma dlPosts_loop_nonvideo (fu : Bool) (s : List Gen) (p bo : Nat) :
    ∀ q ∈ dlPosts (loop fu s p bo).1, q.is_video = false := by
  intro q hq
  rcases List.mem_filterMap.mp (by simpa [dlPosts] using hq) with ⟨ev, hev, hsome⟩
  rcases loop_evs_shape fu s p bo ev hev with ⟨r, hr, heq | heq⟩ | heq | ⟨w, heq⟩ <;>
    subst heq <;> simp_all

/-- Every post counted by a `processed += 1` during a run is a non-video
post. -/
lemma okPosts_loop_nonvideo (fu : Bool) (s : List Gen) (p bo : Nat) :
    ∀ q ∈ okPosts (loop fu s p bo).1, q.is_video = false := by
  intro q hq
  rcases List.mem_filterMap.mp (by simpa [okPosts] using hq) with ⟨ev, hev, hsome⟩
  rcases loop_evs_shape fu s p bo ev hev with ⟨r, hr, heq | heq⟩ | heq | ⟨w, heq⟩ <;>
    subst heq <;> simp_all

/-! ## Claims -/

/-- C1: if the backoff index has reached or exceeded the schedule length (5)
and a traversal attempt ends with `processed` equal to the `count_before`
snapshot (i.e. the attempt recorded no successful download), then the retry
loop terminates after that attempt: the run is independent of any further
scripted attempts, and its outcome is never the still-running marker.  The
stall guard sits in the `finally` clause, so this holds on every exit path of
the attempt. -/
theorem c1_stall_guard_terminates (fu : Bool) (g : Gen) (rest : List Gen)
    (p bo : Nat) (hbo : backoffs.length ≤ bo)
    (hnp : countOk (roundRun fu g).evs = 0) :
    loop fu (g :: rest) p bo = loop fu [g] p bo ∧
      ∀ q b, (loop fu (g :: rest) p bo).2 ≠ .outOfScript q b := by
  have hstall : p + countOk (roundRun fu g).evs = p ∧ backoffs.length ≤ bo + 1 :=
    ⟨by simp [hnp], by omega⟩
  constructor
  · cases h : (roundRun fu g).exc with
    | none => rw [loop_cons_none fu g rest p bo h, loop_cons_none fu g [] p bo h]
    | some e =>
        by_cases hk1 : e.kind = .notFound
        · rw [loop_cons_notFound fu g rest p bo e h hk1,
            loop_cons_notFound fu g [] p bo e h hk1]
        · by_cases hk2 : e.kind = .keyboardInterrupt
          · rw [loop_cons_interrupt fu g rest p bo e h hk2,
              loop_cons_interrupt fu g [] p bo e h hk2]
          · cases hb : should_backoff e with
            | false =>
                rw [loop_cons_fatal fu g rest p bo e h hk1 hk2 hb,
                  loop_cons_fatal fu g [] p bo e h hk1 hk2 hb]
            | true =>
                rw [loop_cons_retry fu g rest p bo e h hk1 hk2 hb,
                  loop_cons_retry fu g [] p bo e h hk1 hk2 hb,
                  if_pos hstall, if_pos hstall]
  · intro q b
    cases h : (roundRun fu g).exc with
    | none => rw [loop_cons_none fu g rest p bo h]; simp
    | some e =>
        by_cases hk1 : e.kind = .notFound
        · rw [loop_cons_notFound fu g rest p bo e h hk1]; simp
        · by_cases hk2 : e.kind = .keyboardInterrupt
          · rw [loop_cons_interrupt fu g rest p bo e h hk2]
            split <;> simp
          · cases hb : should_backoff e with
            | false => rw [loop_cons_fatal fu g rest p bo e h hk1 hk2 hb]; simp
            | true =>
                rw [loop_cons_retry fu g rest p bo e h hk1 hk2 hb, if_pos hstall]
                simp

/-- Witness for C1 at a concrete input: backoff index 5, an attempt with a
retryable failure and no progress, and a further scripted attempt that is
never reached. -/
theorem c1_stall_guard_terminates_witness :
    backoffs.length ≤ 5 ∧ countOk (roundRun false genConn).evs = 0 ∧
      (loop false [genConn, Gen.done] 0 5 = loop false [genConn] 0 5 ∧
        ∀ q b, (loop false [genConn, Gen.done] 0 5).2 ≠ .outOfScript q b) :=
  ⟨by decide, by decide,
   c1_stall_guard_terminates false genConn [Gen.done] 0 5 (by decide) (by decide)⟩

/-- C6: a not-found exception during traversal terminates the run
immediately: no backoff sleep happens and no further traversal attempt is
made, regardless of the backoff index. -/
theorem c6_not_found_terminates (fu : Bool) (g : Gen) (rest : List Gen)
    (p bo : Nat) (e : Exc) (h : (roundRun fu g).exc = some e)
    (hk : e.kind = .notFound) :
    loop fu (g :: rest) p bo =
        ((roundRun fu g).evs, .done (p + countOk (roundRun fu g).evs)) ∧
      sleepWaits (loop fu (g :: rest) p bo).1 = [] := by
  have h1 := loop_cons_notFound fu g rest p bo e h hk
  exact ⟨h1, by rw [h1]; exact sleepWaits_roundRun fu g⟩

/-- Witness for C6 at a concrete input: a not-found failure after one
successful post, with backoff index 3 and a further scripted attempt that is
never reached. -/
theorem c6_not_found_terminates_witness :
    loop false [genANF, genA] 0 3 =
        ((roundRun false genANF).evs, .done (0 + countOk (roundRun false genANF).evs)) ∧
      sleepWaits (loop false [genANF, genA] 0 3).1 = [] :=
  c6_not_found_terminates false genANF [genA] 0 3 excNF (by decide) (by decide)

/-- C3: the failure classifier `should_backoff` returns true exactly on the
retryable class described by the spec (connection / bad-request / forbidden
classes, or a message matching the case-insensitive "please wait a few
minutes" pattern, containing "429", or containing "rate limit" in any case);
and every other exception caught by `except Exception` — i.e. of any class
other than not-found and the uncatchable operator interrupt — is fatal: the
loop stops at once with no sleep and no further attempt. -/
theorem c3_classifier_iff (e : Exc) :
    (should_backoff e = true ↔ specRetryable e) ∧
      (∀ fu g rest p bo, (roundRun fu g).exc = some e →
        e.kind ≠ .notFound → e.kind ≠ .keyboardInterrupt →
        should_backoff e = false →
        loop fu (g :: rest) p bo =
          ((roundRun fu g).evs, .done (p + countOk (roundRun fu g).evs))) := by
  constructor
  · obtain ⟨k, t⟩ := e
    unfold should_backoff specRetryable
    cases k <;> simp [isRetryKind, or_assoc]
  · intro fu g rest p bo h hk1 hk2 hb
    exact loop_cons_fatal fu g rest p bo e h hk1 hk2 hb

/-- Witness for C3 at concrete inputs: a connection error is retryable, and
an unclassified exception stops the loop at once. -/
theorem c3_classifier_iff_witness :
    specRetryable excConn ∧ loop false [Gen.raiseE excBoom] 0 0 = ([], .done 0) :=
  ⟨(c3_classifier_iff excConn).1.mp (by decide),
   ((c3_classifier_iff excBoom).2 false (Gen.raiseE excBoom) [] 0 0
      (by decide) (by decide) (by decide) (by decide)).trans (by decide)⟩

/-- C10: the `use_fast_update` flag has no effect on the traversal: the
pinned-post branch it guards is a no-op, so a run with the flag set makes
exactly the same decisions, emits exactly the same trace and ends in exactly
the same outcome as a run without it. -/
theorem c10_fast_update_equiv (script : List Gen) :
    download_profile_images true script = download_profile_images false script := by
  unfold download_profile_images
  exact loop_fu true false script 0 0

/-- C2: over the fixed schedule [60, 120, 300, 600, 1200], the `n`-th
retryable failure of a run (n counted from 0 here) waits
`backoffs[min(n, len(backoffs)-1)]` seconds — so 60, 120, 300, 600, 1200 for
the first five and 1200 for every later one; the sleep is a countdown at
one-second granularity from the wait value down to 1; and the backoff index
is incremented immediately after the sleep. -/
theorem c2_backoff_schedule (fu : Bool) (script : List Gen) (n : Nat)
    (hn : n < (sleepWaits (download_profile_images fu script).1).length) :
    backoffs = [60, 120, 300, 600, 1200] ∧
      (sleepWaits (download_profile_images fu script).1).getD n 0 =
        backoffs.getD (min n (backoffs.length - 1)) 0 ∧
      (∀ w, (polite_sleep w).length = w) ∧
      (∀ w i, i < w → (polite_sleep w).getD i 0 = w - i) ∧
      sleepsFollowedByInc (download_profile_images fu script).1 = true := by
  refine ⟨rfl, ?_, polite_sleep_length, fun w i => polite_sleep_getD w i, ?_⟩
  · have h := sleepWaits_loop fu script 0 0 n (by simpa [download_profile_images] using hn)
    simpa [download_profile_images] using h
  · exact sleepsFollowedByInc_loop fu script 0 0

/-- Witness for C2 at a concrete input: a run with two retryable failures,
each after fresh progress; the second backoff wait is 120 seconds. -/
theorem c2_backoff_schedule_witness :
    (sleepWaits (download_profile_images false [genProg 1, genProg 2, Gen.done]).1).getD 1 0 =
      backoffs.getD (min 1 (backoffs.length - 1)) 0 :=
  (c2_backoff_schedule false [genProg 1, genProg 2, Gen.done] 1 (by decide)).2.1

/-- C7: `download_post` is never invoked for a post whose `is_video` flag is
true, and `processed` is never incremented for one, in every traversal
attempt of every run (arbitrary start state). -/
theorem c7_videos_never_downloaded (fu : Bool) (script : List Gen) (p bo : Nat) :
    (∀ q ∈ dlPosts (loop fu script p bo).1, q.is_video = false) ∧
      (∀ q ∈ okPosts (loop fu script p bo).1, q.is_video = false) :=
  ⟨dlPosts_loop_nonvideo fu script p bo, okPosts_loop_nonvideo fu script p bo⟩

/-- Witness for C7 at a concrete input: in the run over posts A, B (video),
C, the posts A and C found in the invocation and success traces are
non-video. -/
theorem c7_videos_never_downloaded_witness :
    postA.is_video = false ∧ postC.is_video = false :=
  ⟨(c7_videos_never_downloaded false [genMix] 0 0).1 postA (by decide),
   (c7_videos_never_downloaded false [genMix] 0 0).2 postC (by decide)⟩

/-- C8: across a run, `processed` and `bo_idx` never decrease and move in
steps of at most one.  The trace records every mutation (`processed += 1` as
a `dlOk` event, `bo_idx += 1` as a `boInc` event); over every trace prefix
the counters are monotone with unit steps, and the final `processed` agrees
with the count of its increments. -/
theorem c8_counters_monotone (fu : Bool) (script : List Gen) (p bo i : Nat) :
    (countOk ((loop fu script p bo).1.take i) ≤
        countOk ((loop fu script p bo).1.take (i + 1)) ∧
      countOk ((loop fu script p bo).1.take (i + 1)) ≤
        countOk ((loop fu script p bo).1.take i) + 1) ∧
      (countBoInc ((loop fu script p bo).1.take i) ≤
          countBoInc ((loop fu script p bo).1.take (i + 1)) ∧
        countBoInc ((loop fu script p bo).1.take (i + 1)) ≤
          countBoInc ((loop fu script p bo).1.take i) + 1) ∧
      outProc (loop fu script p bo).2 = p + countOk (loop fu script p bo).1 := by
  refine ⟨?_, ?_, loop_outProc fu script p bo⟩
  · simpa [countOk] using length_filter_take_succ _ (loop fu script p bo).1 i
  · simpa [countBoInc] using length_filter_take_succ _ (loop fu script p bo).1 i

/-- C4 counterexample: the download of post A fails with an unclassified
exception while post C is next in the same traversal; the code does NOT
continue with C — the exception escapes the `for` loop and the run stops
with `processed = 0` and C never downloaded, contradicting the claim that a
per-post failure is logged and the traversal continues with the next post. -/
theorem c4_counterexample :
    (download_profile_images false [genDlFail]).2 = .done 0 ∧
      dlPosts (download_profile_images false [genDlFail]).1 = [postA] ∧
      postC ∉ dlPosts (download_profile_images false [genDlFail]).1 := by
  decide

/-- C4 amended: a per-post `download_post` failure is not handled per post:
it aborts the traversal attempt at that post (the download was invoked for
it, `processed` is not incremented for it, the remaining posts of the
attempt are not visited) and the exception propagates to the loop boundary,
where it is classified like any iteration-level exception. -/
theorem c4_per_post_failure_aborts_round (fu : Bool) (p : Post) (e : Exc)
    (rest : Gen) (hv : p.is_video = false) :
    roundRun fu (.yieldP p (some e) rest) = ⟨[.dlInvoke p], some e⟩ := by
  simp [roundRun, hv]

/-- Witness for the amended C4 at a concrete input. -/
theorem c4_per_post_failure_aborts_round_witness :
    roundRun false (.yieldP postA (some excBoom) (.yieldP postC none .done)) =
      ⟨[.dlInvoke postA], some excBoom⟩ :=
  c4_per_post_failure_aborts_round false postA excBoom
    (.yieldP postC none .done) (by decide)

/-- C5 counterexample: post A is downloaded, a retryable failure restarts the
traversal, and A is downloaded again; the run ends with `processed = 2`
although only one distinct shortcode was downloaded successfully — the code
does not dedupe by shortcode across restarts, contradicting the claim. -/
theorem c5_counterexample :
    (download_profile_images false [genAConn, genA]).2 = .done 2 ∧
      okShortcodes (download_profile_images false [genAConn, genA]).1 = ["A", "A"] ∧
      ((okShortcodes (download_profile_images false [genAConn, genA]).1).dedup).length = 1 := by
  decide

/-- C5 amended: the final `processed` equals the total number of successful
`download_post` invocations for non-video posts across all traversal
attempts, counted with multiplicity — a post downloaded again after a
backoff restart is counted again. -/
theorem c5_processed_counts_with_multiplicity (fu : Bool) (script : List Gen) :
    outProc (download_profile_images fu script).2 =
        (okPosts (download_profile_images fu script).1).length ∧
      ∀ q ∈ okPosts (download_profile_images fu script).1, q.is_video = false := by
  constructor
  · have h := loop_outProc fu script 0 0
    simpa [download_profile_images, countOk_eq_okPosts_length] using h
  · intro q hq
    exact okPosts_loop_nonvideo fu script 0 0 q (by simpa [download_profile_images] using hq)

/-- Witness for the amended C5 at a concrete input: the double-download run
has `processed = 2` and both counted posts are non-video. -/
theorem c5_processed_counts_with_multiplicity_witness :
    outProc (download_profile_images false [genAConn, genA]).2 =
        (okPosts (download_profile_images false [genAConn, genA]).1).length ∧
      postA.is_video = false :=
  ⟨(c5_processed_counts_with_multiplicity false [genAConn, genA]).1,
   (c5_processed_counts_with_multiplicity false [genAConn, genA]).2 postA (by decide)⟩

/-- C9 counterexample: an operator interrupt during traversal is not caught
(`except Exception` does not catch it); the run crashes with the interrupt
and the final summary is not printed, contradicting the claim that the
interrupt is caught at the loop boundary and the summary still printed. -/
theorem c9_counterexample :
    (download_profile_images false [genInt]).2 = .crashed 0 excInt ∧
      summaryPrinted (download_profile_images false [genInt]).2 = false := by
  decide

/-- C9 amended: an operator interrupt raised during traversal propagates out
of the loop and the final summary is not printed — except when the stall
guard condition (no progress this attempt and exhausted backoff schedule)
holds, in which case the `break` in the `finally` clause discards the
interrupt and the loop exits cleanly. -/
theorem c9_interrupt_propagates (fu : Bool) (g : Gen) (rest : List Gen)
    (p bo : Nat) (e : Exc) (h : (roundRun fu g).exc = some e)
    (hk : e.kind = .keyboardInterrupt) :
    loop fu (g :: rest) p bo =
        ((roundRun fu g).evs,
         if p + countOk (roundRun fu g).evs = p ∧ backoffs.length ≤ bo then
           .done (p + countOk (roundRun fu g).evs)
         else .crashed (p + countOk (roundRun fu g).evs) e) ∧
      (¬(p + countOk (roundRun fu g).evs = p ∧ backoffs.length ≤ bo) →
        summaryPrinted (loop fu (g :: rest) p bo).2 = false) := by
  have h1 := loop_cons_interrupt fu g rest p bo e h hk
  refine ⟨h1, fun hcond => ?_⟩
  rw [h1, if_neg hcond]
  rfl

/-- Witness for the amended C9 at a concrete input: an interrupt with backoff
index 0 crashes the run and the summary is not printed. -/
theorem c9_interrupt_propagates_witness :
    summaryPrinted (loop false [genInt] 0 0).2 = false :=
  (c9_interrupt_propagates false genInt [] 0 0 excInt (by decide) (by decide)).2
    (by decide)

end Insta
